import Mathlib

/-!
Verification of the Bee-Slicer-CLI printer scripts.

Python strings are modelled as `List Char`; the scripts' string
operations (`re.sub`, `split`, `strip`, slicing, truthiness) are
translated operation by operation.  Each namespace below embeds one
script of the repository:

* `SrcPrint`    — src/src/print.py (the M33/M32/M625 workflow)
* `PrintPy`     — src/print.py (the M31-header + M32 workflow)
* `Standalone`  — src/standalone-printer/print.py
* `TestM23M24`  — src/print_test_m23m24.py
* `PrintDirect` — src/print_direct.py (direct USB line-by-line sender)
-/

namespace BeeSlicer

/-- Python 2 `str.isspace` characters: space, tab, LF, CR, VT, FF. -/
def pyIsSpace (c : Char) : Bool :=
  c = ' ' || c = '\t' || c = '\n' || c = '\r' || c = '\x0b' || c = '\x0c'

/-- Python `str.strip()`: remove leading and trailing whitespace. -/
def pyStripWs (s : List Char) : List Char :=
  ((s.dropWhile pyIsSpace).reverse.dropWhile pyIsSpace).reverse

/-- Python `needle in hay` (substring containment). -/
def containsSub (needle hay : List Char) : Bool :=
  hay.tails.any (fun t => needle.isPrefixOf t)

/-- Characters strictly before the first occurrence of `sep`
(the whole list when `sep` does not occur): `hay.split(sep)[0]`. -/
def beforeFirstSub (sep : List Char) : List Char → List Char
  | [] => []
  | c :: t => if sep.isPrefixOf (c :: t) then [] else c :: beforeFirstSub sep t

/-- Characters after the first occurrence of `sep`, or `none` when
`sep` does not occur. -/
def afterFirstSub (sep : List Char) : List Char → Option (List Char)
  | [] => if sep.isEmpty then some [] else none
  | c :: t =>
    if sep.isPrefixOf (c :: t) then some ((c :: t).drop sep.length)
    else afterFirstSub sep t

/-- Python `s.split()[0]`: first whitespace-delimited token, `none` when
the split list is empty (the script's `IndexError` path). -/
def firstToken (s : List Char) : Option (List Char) :=
  let t := (s.dropWhile pyIsSpace).takeWhile (fun c => !pyIsSpace c)
  if t.isEmpty then none else some t

/-- Decimal digits to a natural number. -/
def digitsToNat (ds : List Char) : Nat :=
  ds.foldl (fun n c => n * 10 + (c.toNat - '0'.toNat)) 0

/-- Truncated magnitude of `m * 10 ^ k` for an integer exponent `k`
(natural division truncates, matching Python `int()` on a magnitude). -/
def scaleTrunc (m : Nat) (k : Int) : Nat :=
  if 0 ≤ k then m * 10 ^ k.toNat else m / 10 ^ (-k).toNat

/-- Python `int(float(s))`, with `float` modelled as exact decimal
arithmetic: optional sign, digits with an optional fraction part, and an
optional decimal exponent.  Binary-rounding artefacts and the overflow /
inf / nan paths of the runtime `float` (which all end in the scripts'
bare `except: pass`) are outside the model. -/
def parsePyFloatTrunc (s : List Char) : Option Int :=
  let (sgn, s1) : Int × List Char :=
    match s with
    | '+' :: t => (1, t)
    | '-' :: t => (-1, t)
    | _ => (1, s)
  let ip := s1.takeWhile Char.isDigit
  let r1 := s1.drop ip.length
  let (fp, r2) : List Char × List Char :=
    match r1 with
    | '.' :: t => (t.takeWhile Char.isDigit, t.drop (t.takeWhile Char.isDigit).length)
    | _ => ([], r1)
  if ip.isEmpty && fp.isEmpty then none
  else
    let m := digitsToNat (ip ++ fp)
    match r2 with
    | [] => some (sgn * Int.ofNat (scaleTrunc m (-(Int.ofNat fp.length))))
    | e :: t =>
      if e = 'e' || e = 'E' then
        let (esgn, t1) : Int × List Char :=
          match t with
          | '+' :: u => (1, u)
          | '-' :: u => (-1, u)
          | _ => (1, t)
        let ed := t1.takeWhile Char.isDigit
        if ed.isEmpty || !(t1.drop ed.length).isEmpty then none
        else some (sgn * Int.ofNat (scaleTrunc m (esgn * Int.ofNat (digitsToNat ed) - Int.ofNat fp.length)))
      else none

/-- Python 2 `\w` without `re.UNICODE` is `[a-zA-Z0-9_]`, so the class
`[\W_]` removes exactly the non-alphanumeric characters; this predicate
keeps the survivors of `re.sub('[\W_]+', '', s)`. -/
def isPyAlnum (c : Char) : Bool :=
  c.isAlpha || c.isDigit

/-- `re.sub('[\W_]+', '', s)`: keep only ASCII letters and digits. -/
def stripNonAlnum (s : List Char) : List Char :=
  s.filter isPyAlnum

/-- Python 2 `str.upper()` (ASCII). -/
def upperL (s : List Char) : List Char :=
  s.map Char.toUpper

namespace PrintPy

/-- src/print.py lines 218-220: `re.sub('[\W_]+', '', basename)`
truncated to 7 characters only when the stripped string is longer
than 8. -/
def sd_trunc (basename : List Char) : List Char :=
  if (stripNonAlnum basename).length > 8 then (stripNonAlnum basename).take 7
  else stripNonAlnum basename

/-- src/print.py lines 218-222: the expected SD filename; after the
conditional truncation a leading decimal digit is replaced in place by
the filler letter a (keeping slice `[1:7]`; an empty string is left
unchanged, matching the `if sd_filename and ...` truthiness guard). -/
def sd_filename (basename : List Char) : List Char :=
  match sd_trunc basename with
  | [] => []
  | c :: rest => if c.isDigit then 'a' :: rest.take 6 else c :: rest

end PrintPy

namespace Standalone

/-- src/standalone-printer/print.py line 118: truncate the host
basename to 8 characters first, then delete only dot, space, dash and
underscore (the chained `.replace(x, '')` calls). -/
def sd_pre (basename : List Char) : List Char :=
  (basename.take 8).filter (fun c => !(c = '.' || c = ' ' || c = '-' || c = '_'))

/-- src/standalone-printer/print.py lines 118-122: an empty result
falls back to PRINT, and otherwise a leading decimal digit is replaced
in place by the filler letter P (keeping slice `[1:8]`). -/
def sd_name (basename : List Char) : List Char :=
  match sd_pre basename with
  | [] => ['P', 'R', 'I', 'N', 'T']
  | c :: rest => if c.isDigit then 'P' :: rest.take 7 else c :: rest

end Standalone

namespace SrcPrint

/-- src/src/print.py line 132 (identical in src/print.py line 112):
`line.split(' S')[1].split()[0].split(';')[0]` fed to `int(float(_))`;
any failure along the way is the scripts' `except: pass`. -/
def extract_temp (line : List Char) : Option Int :=
  match afterFirstSub (" S".toList) line with
  | none => none
  | some rest =>
    match firstToken (beforeFirstSub (" S".toList) rest) with
    | none => none
    | some tok => parsePyFloatTrunc (beforeFirstSub (";".toList) tok)

/-- src/src/print.py lines 119-138, one iteration of the analysis loop:
skip blank and comment lines, and on an M104/M109 line carrying an S
argument adopt the parsed value only when it exceeds 150 degrees. -/
def process_line (target_temp : Int) (raw : List Char) : Int :=
  let line := pyStripWs raw
  if line.isEmpty then target_temp
  else if (";".toList).isPrefixOf line then target_temp
  else if ("M104".toList).isPrefixOf line || ("M109".toList).isPrefixOf line then
    if containsSub (" S".toList) line then
      match extract_temp line with
      | some temp => if temp > 150 then temp else target_temp
      | none => target_temp
    else target_temp
  else target_temp

/-- src/src/print.py lines 116-138: the whole file scan, starting from
the default temperature 200. -/
def target_temp (lines : List (List Char)) : Int :=
  lines.foldl process_line 200

/-- The value a line contributes to the src/src/print.py scan, when it
contributes one: the parsed above-threshold S argument of a
non-comment M104/M109 line. -/
def qualifying_temp (raw : List Char) : Option Int :=
  let line := pyStripWs raw
  if line.isEmpty then none
  else if (";".toList).isPrefixOf line then none
  else if ("M104".toList).isPrefixOf line || ("M109".toList).isPrefixOf line then
    if containsSub (" S".toList) line then
      match extract_temp line with
      | some temp => if temp > 150 then some temp else none
      | none => none
    else none
  else none

end SrcPrint

namespace PrintPy

/-- src/print.py lines 100-116, one iteration of the analysis loop: the
same extraction as src/src/print.py but with no plausibility threshold —
every parsed value is adopted. -/
def process_line (target_temp : Int) (raw : List Char) : Int :=
  let line := pyStripWs raw
  if line.isEmpty then target_temp
  else if (";".toList).isPrefixOf line then target_temp
  else if ("M104".toList).isPrefixOf line || ("M109".toList).isPrefixOf line then
    if containsSub (" S".toList) line then
      match SrcPrint.extract_temp line with
      | some temp => temp
      | none => target_temp
    else target_temp
  else target_temp

/-- src/print.py lines 96-116: the whole file scan, starting from the
default temperature 200. -/
def target_temp (lines : List (List Char)) : Int :=
  lines.foldl process_line 200

/-- The value a line contributes to the src/print.py scan: any parsed S
argument of a non-comment M104/M109 line. -/
def parsed_temp (raw : List Char) : Option Int :=
  let line := pyStripWs raw
  if line.isEmpty then none
  else if (";".toList).isPrefixOf line then none
  else if ("M104".toList).isPrefixOf line || ("M109".toList).isPrefixOf line then
    if containsSub (" S".toList) line then
      match SrcPrint.extract_temp line with
      | some temp => some temp
      | none => none
    else none
  else none

/-- src/print.py lines 227-249: the printed file selection.  `none`
models Python `None`; the `if f.isEmpty` test mirrors the
`if not matched_file` truthiness check that replaces an empty loop find
with the expected name. -/
def matched_file (file_list : Option (List (List Char))) (sd : List Char) :
    Option (List Char) :=
  match file_list with
  | none => none
  | some files =>
    if upperL sd ∈ files then some (upperL sd)
    else
      match files.find? (fun g => ((upperL sd).take 6).isPrefixOf g) with
      | some f => if f.isEmpty then some (upperL sd) else some f
      | none => some (upperL sd)

/-- src/print.py lines 251-254: the name finally passed to M32 — the
match when one was produced (and truthy), the uppercased expected name
otherwise. -/
def final_sd_filename (file_list : Option (List (List Char))) (sd : List Char) :
    List Char :=
  match matched_file file_list sd with
  | some m => if m.isEmpty then upperL sd else m
  | none => upperL sd

end PrintPy

namespace SrcPrint

/-- src/src/print.py line 242: a truthy M32 response containing any of
the print-session-variable field letters A, B or D. -/
def m32_signal (resp : Option (List Char)) : Bool :=
  match resp with
  | none => false
  | some r => !r.isEmpty && (r.contains 'A' || r.contains 'B' || r.contains 'D')

/-- src/src/print.py line 252: a truthy M625 response containing the
printing status code s:5. -/
def m625_signal (resp : Option (List Char)) : Bool :=
  match resp with
  | none => false
  | some r => !r.isEmpty && containsSub ("s:5".toList) r

/-- One round of src/src/print.py lines 235-255: the round confirms when
either the M32 probe or the M625 probe carries its signal (the M625
probe is only sent when the M32 check fails, which does not change the
round's outcome). -/
def probe_round (p : Option (List Char) × Option (List Char)) : Bool :=
  m32_signal p.1 || m625_signal p.2

/-- src/src/print.py lines 234-259: the `for i in range(6)` confirmation
loop, probing round `i` first; returns the confirmation flag and the
number of rounds performed. -/
def confirm_from (env : Nat → Option (List Char) × Option (List Char)) :
    Nat → Nat → Bool × Nat
  | _, 0 => (false, 0)
  | i, fuel + 1 =>
    if probe_round (env i) then (true, 1)
    else
      let r := confirm_from env (i + 1) fuel
      (r.1, r.2 + 1)

/-- src/src/print.py line 234-261: `is_printing` after the loop, with
the round budget fixed at 6. -/
def is_printing (env : Nat → Option (List Char) × Option (List Char)) :
    Bool × Nat :=
  confirm_from env 0 6

/-- The wire/driver actions of src/src/print.py lines 79-101. -/
inductive Action where
  | goToFirmware
  | sleepSec (n : Nat)
  | reconnect
  | getCommandIntf
  | getPrinterMode
deriving DecidableEq

/-- Device behaviour around a mode switch: whether `c.reconnect()` and
the subsequent `getCommandIntf()` succeed, and the mode reported
afterwards. -/
structure ModeEnv where
  reconnect_ok : Bool
  intf_ok : Bool
  mode_after : List Char

/-- src/src/print.py lines 79-101: the firmware-mode guard.  When the
queried mode is already Firmware the whole block is skipped; otherwise
the script switches mode, waits 5 seconds, reconnects (exiting on
failure), re-acquires the command interface (exiting on failure) and
re-queries the mode. -/
def ensure_firmware (env : ModeEnv) (mode : List Char) :
    Except (List Char) (List Char × List Action) :=
  if mode ≠ "Firmware".toList then
    if env.reconnect_ok = false then
      Except.error ("Failed to reconnect after firmware switch".toList)
    else if env.intf_ok = false then
      Except.error ("Failed to get command interface after reconnect".toList)
    else
      Except.ok (env.mode_after,
        [Action.goToFirmware, Action.sleepSec 5, Action.reconnect,
         Action.getCommandIntf, Action.getPrinterMode])
  else Except.ok (mode, [])

end SrcPrint

namespace TestM23M24

/-- The wire command M33 of src/print_test_m23m24.py line 39. -/
def m33_cmd (f : List Char) : List Char :=
  'M' :: '3' :: '3' :: ' ' :: (f ++ ['\n'])

/-- The wire command M23 of src/print_test_m23m24.py line 52. -/
def m23_cmd (f : List Char) : List Char :=
  'M' :: '2' :: '3' :: ' ' :: (f ++ ['\n'])

/-- The wire command M24 of src/print_test_m23m24.py line 58. -/
def m24_cmd : List Char :=
  'M' :: '2' :: '4' :: '\n' :: []

/-- Marker for the `cmd.initSD()` driver call of line 69. -/
def initSD_cmd : List Char :=
  'i' :: 'n' :: 'i' :: 't' :: 'S' :: 'D' :: []

/-- src/print_test_m23m24.py lines 37-76: the three-dialect fallback
chain.  `d` is the device: given the commands issued so far it answers
`cmd.isPrinting()`.  Returns the commands issued and the final
confirmation. -/
def fallback_chain (d : List (List Char) → Bool) (f : List Char) :
    List (List Char) × Bool :=
  let t1 := [m33_cmd f]
  if d t1 then (t1, true)
  else
    let t2 := t1 ++ [m23_cmd f, m24_cmd]
    if d t2 then (t2, true)
    else
      let t3 := t2 ++ [initSD_cmd, m33_cmd f]
      (t3, d t3)

end TestM23M24

namespace SrcPrint

/-- The heat-set command text of src/src/print.py line 173. -/
def m104_cmd (target : Int) : List Char :=
  "M104 S".toList ++ (toString target).toList ++ ['\n']

/-- Outcome of one heating invocation: the heat-set commands issued,
whether the target was declared reached, and the temperature the loop
ended on. -/
structure HeatResult where
  cmds : List (List Char)
  reached : Bool
  finalTemp : Option Int
deriving DecidableEq

/-- src/src/print.py lines 179-193 (print_direct.py lines 122-136 are
identical): the temperature polling loop.  `samples i` is the reading
`getNozzleTemperature()` returns in round `i` (`none` for Python
`None`, which the loop skips); `fuel` is the number of rounds the
300-second budget allows at the fixed 2-second sleep; `last` the last
reading seen.  The loop breaks as reached on a sample at or above
`target - 2`. -/
def heat_poll (samples : Nat → Option Int) (target : Int) :
    Nat → Nat → Option Int → Bool × Option Int
  | _, 0, last => (false, last)
  | i, fuel + 1, last =>
    match samples i with
    | none => heat_poll samples target (i + 1) fuel last
    | some t =>
      if target - 2 ≤ t then (true, some t)
      else heat_poll samples target (i + 1) fuel (some t)

/-- The last reading the polling loop would have seen: same traversal as
`heat_poll` without the early exit. -/
def last_obs (samples : Nat → Option Int) : Nat → Nat → Option Int → Option Int
  | _, 0, last => last
  | i, fuel + 1, last =>
    match samples i with
    | none => last_obs samples (i + 1) fuel last
    | some t => last_obs samples (i + 1) fuel (some t)

/-- src/src/print.py lines 172-193: send M104 once, then poll; no
command is ever issued inside the loop. -/
def heatTo (samples : Nat → Option Int) (target : Int) (fuel : Nat) : HeatResult :=
  { cmds := [m104_cmd target]
    reached := (heat_poll samples target 0 fuel none).1
    finalTemp := (heat_poll samples target 0 fuel none).2 }

end SrcPrint

namespace Standalone

/-- Python 2 comparison `o >= h` where `o` may be `None`: `None`
compares below every number, so the comparison is `false` for `none`. -/
def cmpGE (o : Option Int) (h : Int) : Bool :=
  match o with
  | some t => decide (h ≤ t)
  | none => false

/-- src/standalone-printer/print.py lines 100-109: the polling loop
breaks only on `current_temp >= heat_temp` — no tolerance — and
otherwise keeps the latest reading (starting from the script's
`current_temp = 0`). -/
def heat_poll (samples : Nat → Option Int) (heat : Int) :
    Nat → Nat → Option Int → Option Int
  | _, 0, cur => cur
  | i, fuel + 1, _ =>
    if cmpGE (samples i) heat then samples i
    else heat_poll samples heat (i + 1) fuel (samples i)

/-- src/standalone-printer/print.py lines 92-112: the heat-set command
is issued once at `target_temp + 5`, and after the loop the script
treats `current_temp < heat_temp` as not reached. -/
def heatTo (samples : Nat → Option Int) (target_temp : Int) (fuel : Nat) :
    SrcPrint.HeatResult :=
  { cmds := [SrcPrint.m104_cmd (target_temp + 5)]
    reached := cmpGE (heat_poll samples (target_temp + 5) 0 fuel (some 0)) (target_temp + 5)
    finalTemp := heat_poll samples (target_temp + 5) 0 fuel (some 0) }

end Standalone

namespace PrintDirect

/-- What a `cmd.sendCmd` call can do: return a response, raise
`KeyboardInterrupt`, or raise any other (transport) exception. -/
inductive SendResult where
  | ok (resp : List Char)
  | interrupt
  | err
deriving DecidableEq

/-- The device and user, seen through `sendCmd`: the result of sending a
command given the commands already sent. -/
def Env : Type :=
  List (List Char) → List Char → SendResult

/-- src/print_direct.py line 199, the break command. -/
def m108_cmd : List Char :=
  'M' :: '1' :: '0' :: '8' :: '\n' :: []

/-- src/print_direct.py line 200, the emergency stop command. -/
def m112_cmd : List Char :=
  'M' :: '1' :: '1' :: '2' :: '\n' :: []

/-- Outcome of the streaming section: the commands whose send was
attempted, whether `c.close()` ran, and the `sys.exit` code if any. -/
structure RunResult where
  trace : List (List Char)
  closed : Bool
  exit_code : Option Nat
deriving DecidableEq

/-- src/print_direct.py lines 185-205, the outer `except
KeyboardInterrupt` handler: attempt M108 and then M112 inside one bare
`try/except: pass` — so a raise from the M108 send is swallowed but
skips the M112 send — then close the connection and exit with status
1. -/
def stop_and_close (env : Env) (trace : List (List Char)) : RunResult :=
  match env trace m108_cmd with
  | SendResult.ok _ =>
    { trace := trace ++ [m108_cmd, m112_cmd], closed := true, exit_code := some 1 }
  | _ =>
    { trace := trace ++ [m108_cmd], closed := true, exit_code := some 1 }

/-- src/print_direct.py lines 150-151: append a newline when the line
lacks one. -/
def ensure_newline (l : List Char) : List Char :=
  if l.getLast? = some '\n' then l else l ++ ['\n']

/-- src/print_direct.py lines 147-205: the streaming loop.  A
`KeyboardInterrupt` in a send is re-raised by the inner handler and
lands in `stop_and_close`; any other exception increments the error
count and the loop continues; when the lines run out the model stops at
the boundary of the outer `try`. -/
def stream (env : Env) : List (List Char) → List (List Char) → RunResult
  | [], trace => { trace := trace, closed := false, exit_code := none }
  | line :: rest, trace =>
    let l := ensure_newline line
    match env trace l with
    | SendResult.interrupt => stop_and_close env (trace ++ [l])
    | _ => stream env rest (trace ++ [l])

/-- The whole streaming section from an empty trace. -/
def run (env : Env) (lines : List (List Char)) : RunResult :=
  stream env lines []

/-- A device on which the user interrupts the first G-code send and the
M108 stop send then raises a transport error. -/
def envC : Env := fun trace cmdL =>
  if cmdL = m108_cmd then SendResult.err
  else if trace.isEmpty then SendResult.interrupt
  else SendResult.ok []

end PrintDirect

/-- The first character an output of `PrintPy.sd_filename` can have is
never a decimal digit. -/
theorem sd_filename_head_not_digit (b : List Char) (c : Char) (cs : List Char)
    (h : PrintPy.sd_filename b = c :: cs) : c.isDigit = false := by
  unfold PrintPy.sd_filename at h
  rcases hs : PrintPy.sd_trunc b with _ | ⟨c', rest⟩ <;> rw [hs] at h
  · exact absurd h (by simp)
  · dsimp only at h
    by_cases hd : c'.isDigit = true
    · rw [if_pos hd] at h
      cases h
      decide
    · rw [if_neg hd] at h
      cases h
      exact Bool.not_eq_true _ ▸ hd

/-- Members of `PrintPy.sd_trunc` come from the alphanumeric strip. -/
theorem sd_trunc_alnum (b : List Char) (c : Char)
    (h : c ∈ PrintPy.sd_trunc b) : isPyAlnum c = true := by
  unfold PrintPy.sd_trunc at h
  have base : ∀ x ∈ stripNonAlnum b, isPyAlnum x = true := by
    intro x hx
    exact List.of_mem_filter hx
  split at h
  · exact base c (List.take_subset _ _ h)
  · exact base c h

/-- Every character of an output of `PrintPy.sd_filename` is
alphanumeric. -/
theorem sd_filename_alnum (b : List Char) (c : Char)
    (h : c ∈ PrintPy.sd_filename b) : isPyAlnum c = true := by
  unfold PrintPy.sd_filename at h
  rcases hs : PrintPy.sd_trunc b with _ | ⟨c', rest⟩ <;> rw [hs] at h
  · exact absurd h (by simp)
  · dsimp only at h
    by_cases hd : c'.isDigit = true
    · rw [if_pos hd] at h
      rcases List.mem_cons.1 h with h1 | h1
      · subst h1; decide
      · exact sd_trunc_alnum b c (hs ▸ List.mem_cons_of_mem _ (List.take_subset _ _ h1))
    · rw [if_neg hd] at h
      exact sd_trunc_alnum b c (hs ▸ h)

/-- Length bound for the conditional truncation step. -/
theorem sd_trunc_length (b : List Char) :
    (PrintPy.sd_trunc b).length ≤ 8 ∧
      ((stripNonAlnum b).length ≠ 8 → (PrintPy.sd_trunc b).length ≤ 7) := by
  unfold PrintPy.sd_trunc
  by_cases h : (stripNonAlnum b).length > 8
  · rw [if_pos h]
    refine ⟨?_, fun _ => ?_⟩ <;> · simp [List.length_take]
  · rw [if_neg h]
    exact ⟨by omega, fun hne => by omega⟩

/-- The digit-replacement step never makes the name longer than the
larger of the truncated length and 7. -/
theorem sd_filename_length_le (b : List Char) :
    (PrintPy.sd_filename b).length ≤ max (PrintPy.sd_trunc b).length 7 := by
  unfold PrintPy.sd_filename
  rcases hs : PrintPy.sd_trunc b with _ | ⟨c, rest⟩
  · simp
  · dsimp only
    split
    · have : ('a' :: rest.take 6).length ≤ 7 := by
        simp [List.length_take]
      exact le_trans this (le_max_right _ _)
    · rw [← hs]
      exact le_max_left _ _

/-- A short alphanumeric string not starting with a digit is a fixed
point of the src/print.py name derivation. -/
theorem sd_filename_fixed (y : List Char)
    (h1 : ∀ c ∈ y, isPyAlnum c = true)
    (h2 : y.length ≤ 7)
    (h3 : ∀ c cs, y = c :: cs → c.isDigit = false) :
    PrintPy.sd_filename y = y := by
  have hstrip : stripNonAlnum y = y := List.filter_eq_self.2 h1
  have htr : PrintPy.sd_trunc y = y := by
    unfold PrintPy.sd_trunc
    rw [hstrip, if_neg (by omega)]
  unfold PrintPy.sd_filename
  rw [htr]
  cases y with
  | nil => rfl
  | cons c cs =>
    dsimp only
    rw [if_neg (by simp [h3 c cs rfl])]

end BeeSlicer

/-- Claim C4 (corrected).  src/print.py strips every character that is
not a letter or digit, but truncates to 7 characters only when the
stripped string is longer than 8, so the derived SD filename is
alphanumeric of length at most 8, and of length at most 7 whenever the
stripped string does not have length exactly 8. -/
theorem C4_sanitize_strip_truncate (b : List Char) :
    (∀ c ∈ BeeSlicer.PrintPy.sd_filename b, BeeSlicer.isPyAlnum c = true) ∧
    (BeeSlicer.PrintPy.sd_filename b).length ≤ 8 ∧
    ((BeeSlicer.stripNonAlnum b).length ≠ 8 →
      (BeeSlicer.PrintPy.sd_filename b).length ≤ 7) := by
  refine ⟨fun c hc => BeeSlicer.sd_filename_alnum b c hc, ?_, ?_⟩
  · have h1 := BeeSlicer.sd_filename_length_le b
    have h2 := (BeeSlicer.sd_trunc_length b).1
    have := max_le (le_trans h2 (by omega)) (by omega : 7 ≤ 8)
    omega
  · intro hne
    have h1 := BeeSlicer.sd_filename_length_le b
    have h2 := (BeeSlicer.sd_trunc_length b).2 hne
    have := max_le h2 (le_refl 7)
    omega

/-- Claim C4, witness: a stripped name of 19 characters is truncated to
7. -/
theorem C4_sanitize_strip_truncate_w :
    (BeeSlicer.PrintPy.sd_filename ("my-long-model-name.gcode".toList)).length ≤ 7 :=
  (C4_sanitize_strip_truncate _).2.2 (by decide)

/-- Claim C4, counterexample: a basename whose stripped form has exactly
8 characters is not truncated at all, so the result has length 8, not at
most 7 as the claim states. -/
theorem C4_counterexample :
    ¬ (BeeSlicer.PrintPy.sd_filename ("abcdefgh".toList)).length ≤ 7 := by
  decide

/-- Claim C5 (corrected).  The standalone sender's name derivation is
non-empty with a first character that is never a decimal digit (empty
post-strip falls back to PRINT, a leading digit is replaced in place by
the filler letter P); the src/print.py derivation also never starts with
a digit but has no empty fallback. -/
theorem C5_sanitize_first_char (b : List Char) :
    BeeSlicer.Standalone.sd_name b ≠ [] ∧
    (∀ c cs, BeeSlicer.Standalone.sd_name b = c :: cs → c.isDigit = false) ∧
    (∀ c cs, BeeSlicer.PrintPy.sd_filename b = c :: cs → c.isDigit = false) := by
  refine ⟨?_, ?_, fun c cs h => BeeSlicer.sd_filename_head_not_digit b c cs h⟩
  · unfold BeeSlicer.Standalone.sd_name
    rcases hs : BeeSlicer.Standalone.sd_pre b with _ | ⟨c, rest⟩
    · simp
    · dsimp only
      split <;> simp
  · intro c cs h
    unfold BeeSlicer.Standalone.sd_name at h
    rcases hs : BeeSlicer.Standalone.sd_pre b with _ | ⟨c', rest⟩ <;> rw [hs] at h
    · cases h
      decide
    · dsimp only at h
      by_cases hd : c'.isDigit = true
      · rw [if_pos hd] at h
        cases h
        decide
      · rw [if_neg hd] at h
        cases h
        exact Bool.not_eq_true _ ▸ hd

/-- Claim C5, witness: a digits-and-symbols basename gets the filler
letter. -/
theorem C5_sanitize_first_char_w :
    BeeSlicer.Standalone.sd_name ("123-test.gcode".toList) ≠ [] ∧
    ('P').isDigit = false :=
  ⟨(C5_sanitize_first_char _).1,
   (C5_sanitize_first_char ("123-test.gcode".toList)).2.1 'P' ("23test".toList) (by decide)⟩

/-- Claim C5, counterexample: src/print.py has no empty fallback, so a
symbols-only basename sanitizes to the empty string, contradicting the
claim that sanitize always returns a non-empty token. -/
theorem C5_counterexample :
    BeeSlicer.PrintPy.sd_filename ("---".toList) = [] := by
  decide

/-- Claim C9 (confirmed).  src/print.py's sanitize is idempotent on its
own outputs: whenever the result is alphanumeric and at most 7
characters long, sanitizing it again returns it unchanged. -/
theorem C9_sanitize_idempotent (x : List Char)
    (h1 : ∀ c ∈ BeeSlicer.PrintPy.sd_filename x, BeeSlicer.isPyAlnum c = true)
    (h2 : (BeeSlicer.PrintPy.sd_filename x).length ≤ 7) :
    BeeSlicer.PrintPy.sd_filename (BeeSlicer.PrintPy.sd_filename x) =
      BeeSlicer.PrintPy.sd_filename x :=
  BeeSlicer.sd_filename_fixed (BeeSlicer.PrintPy.sd_filename x) h1 h2
    (fun c cs h => BeeSlicer.sd_filename_head_not_digit x c cs h)

/-- Claim C9, witness: sanitizing a 7-character sanitized name again is
the identity. -/
theorem C9_sanitize_idempotent_w :
    BeeSlicer.PrintPy.sd_filename
        (BeeSlicer.PrintPy.sd_filename ("my-long-model-name.gcode".toList)) =
      BeeSlicer.PrintPy.sd_filename ("my-long-model-name.gcode".toList) :=
  C9_sanitize_idempotent ("my-long-model-name.gcode".toList) (by decide) (by decide)

namespace BeeSlicer

/-- One src/src/print.py scan step keeps the accumulator unless the line
qualifies. -/
theorem srcPrint_process_line_eq (t : Int) (raw : List Char) :
    SrcPrint.process_line t raw = (SrcPrint.qualifying_temp raw).getD t := by
  unfold SrcPrint.process_line SrcPrint.qualifying_temp
  dsimp only
  split
  · rfl
  · split
    · rfl
    · split
      · split
        · split
          · split <;> rfl
          · rfl
        · rfl
      · rfl

/-- One src/print.py scan step keeps the accumulator unless the line
parses. -/
theorem printPy_process_line_eq (t : Int) (raw : List Char) :
    PrintPy.process_line t raw = (PrintPy.parsed_temp raw).getD t := by
  unfold PrintPy.process_line PrintPy.parsed_temp
  dsimp only
  split
  · rfl
  · split
    · rfl
    · split
      · split
        · split <;> rfl
        · rfl
      · rfl

/-- A left fold whose step either replaces the accumulator with a
line's contribution or keeps it computes the last contribution. -/
theorem foldl_step_getD {α : Type} (f : Int → α → Int) (g : α → Option Int)
    (hf : ∀ a x, f a x = (g x).getD a) :
    ∀ (l : List α) (init : Int),
      l.foldl f init = ((l.filterMap g).getLast?).getD init := by
  intro l
  induction l with
  | nil => intro init; rfl
  | cons x xs ih =>
    intro init
    rw [List.foldl_cons, hf, List.filterMap_cons]
    cases hx : g x with
    | none => exact ih init
    | some t =>
      show List.foldl f t xs = ((t :: List.filterMap g xs).getLast?).getD init
      rw [List.getLast?_cons, Option.getD_some, ih t]

end BeeSlicer

/-- Claim C3 (corrected).  The src/src/print.py metadata scan returns
the S argument of the last parseable M104/M109 line whose value exceeds
the 150-degree threshold and the default 200 when no line qualifies (so
M104 S0 yields 200, and the last of several above-threshold commands
wins); the src/print.py scan, however, applies no threshold and returns
the last parseable value unconditionally. -/
theorem C3_last_qualifying_temp :
    (∀ lines, BeeSlicer.SrcPrint.target_temp lines =
      ((lines.filterMap BeeSlicer.SrcPrint.qualifying_temp).getLast?).getD 200) ∧
    (∀ lines, BeeSlicer.PrintPy.target_temp lines =
      ((lines.filterMap BeeSlicer.PrintPy.parsed_temp).getLast?).getD 200) ∧
    BeeSlicer.SrcPrint.target_temp [("M104 S0").toList] = 200 ∧
    BeeSlicer.SrcPrint.target_temp
      [("M104 S180").toList, ("M109 S210").toList, ("M104 S0").toList] = 210 := by
  refine ⟨?_, ?_, by decide, by decide⟩
  · intro lines
    exact BeeSlicer.foldl_step_getD _ _ BeeSlicer.srcPrint_process_line_eq lines 200
  · intro lines
    exact BeeSlicer.foldl_step_getD _ _ BeeSlicer.printPy_process_line_eq lines 200

/-- Claim C3, counterexample: the src/print.py scan has no plausibility
threshold, so a file whose only heating command is M104 S0 yields 0
there, not the default 200 the claim requires. -/
theorem C3_counterexample :
    BeeSlicer.PrintPy.target_temp [("M104 S0").toList] = 0 ∧ (0 : Int) ≠ 200 := by
  exact ⟨by decide, by decide⟩

namespace BeeSlicer

/-- When no probe round carries a signal the loop runs its full fuel. -/
theorem confirm_from_none (env : Nat → Option (List Char) × Option (List Char)) :
    ∀ (fuel i : Nat),
      (∀ k, k < fuel → SrcPrint.probe_round (env (i + k)) = false) →
      SrcPrint.confirm_from env i fuel = (false, fuel) := by
  intro fuel
  induction fuel with
  | zero => intro i _; rfl
  | succ n ih =>
    intro i h
    unfold SrcPrint.confirm_from
    have h0 : SrcPrint.probe_round (env i) = false := by
      have := h 0 (Nat.succ_pos n)
      rwa [Nat.add_zero] at this
    rw [if_neg (by simp [h0])]
    have hrec := ih (i + 1) (fun k hk => by
      have := h (k + 1) (by omega)
      rwa [show i + (k + 1) = i + 1 + k by omega] at this)
    rw [hrec]

/-- A first signalling round stops the loop with confirmation after that
round. -/
theorem confirm_from_hit (env : Nat → Option (List Char) × Option (List Char)) :
    ∀ (k fuel i : Nat), k < fuel →
      SrcPrint.probe_round (env (i + k)) = true →
      (∀ j, j < k → SrcPrint.probe_round (env (i + j)) = false) →
      SrcPrint.confirm_from env i fuel = (true, k + 1) := by
  intro k
  induction k with
  | zero =>
    intro fuel i hk hsig _
    cases fuel with
    | zero => omega
    | succ n =>
      unfold SrcPrint.confirm_from
      rw [Nat.add_zero] at hsig
      rw [if_pos hsig]
  | succ m ih =>
    intro fuel i hk hsig hpre
    cases fuel with
    | zero => omega
    | succ n =>
      unfold SrcPrint.confirm_from
      have h0 : SrcPrint.probe_round (env i) = false := by
        have := hpre 0 (Nat.succ_pos m)
        rwa [Nat.add_zero] at this
      rw [if_neg (by simp [h0])]
      have hrec := ih n (i + 1) (by omega)
        (by rwa [show i + (m + 1) = i + 1 + m by omega] at hsig)
        (fun j hj => by
          have := hpre (j + 1) (by omega)
          rwa [show i + (j + 1) = i + 1 + j by omega] at this)
      rw [hrec]

end BeeSlicer

/-- Claim C1 (confirmed).  Against a device whose six probe rounds never
carry a confirmation signal (no truthy M32 response containing A, B or
D, and no truthy M625 response containing s:5) the confirmation loop of
src/src/print.py performs exactly 6 rounds and terminates with
`is_printing = false`; in the first round where either signal appears it
terminates immediately with `is_printing = true`. -/
theorem C1_confirmation_loop (env : Nat → Option (List Char) × Option (List Char)) :
    ((∀ i, i < 6 → BeeSlicer.SrcPrint.probe_round (env i) = false) →
      BeeSlicer.SrcPrint.is_printing env = (false, 6)) ∧
    (∀ i, i < 6 → BeeSlicer.SrcPrint.probe_round (env i) = true →
      (∀ j, j < i → BeeSlicer.SrcPrint.probe_round (env j) = false) →
      BeeSlicer.SrcPrint.is_printing env = (true, i + 1)) := by
  constructor
  · intro h
    exact BeeSlicer.confirm_from_none env 6 0 (fun k hk => by simpa using h k hk)
  · intro i hi hsig hpre
    exact BeeSlicer.confirm_from_hit env i 6 0 hi (by simpa using hsig)
      (fun j hj => by simpa using hpre j hj)

/-- Claim C1, witness: a silent device exhausts the 6 rounds; a device
answering M32 with a session A-field confirms in round one. -/
theorem C1_confirmation_loop_w :
    BeeSlicer.SrcPrint.is_printing (fun _ => (none, none)) = (false, 6) ∧
    BeeSlicer.SrcPrint.is_printing (fun _ => (some ['A'], none)) = (true, 1) :=
  ⟨(C1_confirmation_loop _).1 (fun _ _ => rfl),
   (C1_confirmation_loop _).2 0 (by decide) (by decide)
     (fun j hj => absurd hj (Nat.not_lt_zero j))⟩

/-- Claim C2 (confirmed).  For a device that does not report printing
after the M33 dialect but reports printing after the M23+M24 dialect,
the src/print_test_m23m24.py chain issues exactly M33, M23, M24 in that
order, ends confirmed, and never issues the third dialect's initSD
call. -/
theorem C2_fallback_chain (d : List (List Char) → Bool) (f : List Char)
    (h1 : d [BeeSlicer.TestM23M24.m33_cmd f] = false)
    (h2 : d [BeeSlicer.TestM23M24.m33_cmd f, BeeSlicer.TestM23M24.m23_cmd f,
             BeeSlicer.TestM23M24.m24_cmd] = true) :
    BeeSlicer.TestM23M24.fallback_chain d f =
      ([BeeSlicer.TestM23M24.m33_cmd f, BeeSlicer.TestM23M24.m23_cmd f,
        BeeSlicer.TestM23M24.m24_cmd], true) ∧
    BeeSlicer.TestM23M24.initSD_cmd ∉ (BeeSlicer.TestM23M24.fallback_chain d f).1 := by
  have hch : BeeSlicer.TestM23M24.fallback_chain d f =
      ([BeeSlicer.TestM23M24.m33_cmd f, BeeSlicer.TestM23M24.m23_cmd f,
        BeeSlicer.TestM23M24.m24_cmd], true) := by
    unfold BeeSlicer.TestM23M24.fallback_chain
    simp [h1, h2]
  refine ⟨hch, ?_⟩
  rw [hch]
  intro hmem
  have hne : ∀ l : List Char, l.head? ≠ BeeSlicer.TestM23M24.initSD_cmd.head? →
      BeeSlicer.TestM23M24.initSD_cmd ≠ l :=
    fun l h he => h (he ▸ rfl)
  rcases List.mem_cons.1 hmem with h | hmem
  · exact hne _ (by exact (by decide : (some 'M' : Option Char) ≠ some 'i')) h
  rcases List.mem_cons.1 hmem with h | hmem
  · exact hne _ (by exact (by decide : (some 'M' : Option Char) ≠ some 'i')) h
  rcases List.mem_cons.1 hmem with h | hmem
  · exact hne _ (by exact (by decide : (some 'M' : Option Char) ≠ some 'i')) h
  · exact List.not_mem_nil _ hmem

/-- Claim C2, witness: a device that reports printing exactly when M24
has been sent confirms on the second dialect. -/
theorem C2_fallback_chain_w :
    BeeSlicer.TestM23M24.fallback_chain
        (fun t => t.contains BeeSlicer.TestM23M24.m24_cmd) ("ABCDE".toList) =
      ([BeeSlicer.TestM23M24.m33_cmd ("ABCDE".toList),
        BeeSlicer.TestM23M24.m23_cmd ("ABCDE".toList),
        BeeSlicer.TestM23M24.m24_cmd], true) :=
  (C2_fallback_chain _ _ (by decide) (by decide)).1

/-- Claim C7 (confirmed).  When the queried mode is already Firmware the
src/src/print.py guard performs no action at all — no mode-switch
command, no settle wait, no reconnection — and succeeds with the mode
unchanged. -/
theorem C7_firmware_noop (env : BeeSlicer.SrcPrint.ModeEnv) (mode : List Char)
    (h : mode = "Firmware".toList) :
    BeeSlicer.SrcPrint.ensure_firmware env mode = Except.ok (mode, []) := by
  subst h
  unfold BeeSlicer.SrcPrint.ensure_firmware
  rw [if_neg (by simp)]

/-- Claim C7, witness. -/
theorem C7_firmware_noop_w :
    BeeSlicer.SrcPrint.ensure_firmware ⟨true, true, []⟩ ("Firmware".toList) =
      Except.ok ("Firmware".toList, []) :=
  C7_firmware_noop _ _ rfl

/-- Claim C8 (confirmed).  src/print.py selects the exact uppercase
expected name when the device lists it, otherwise the first listed file
matching the 6-character prefix of the expected uppercase name, and
otherwise proceeds with the expected uppercase name anyway. -/
theorem C8_sd_file_matching (files : List (List Char)) (sd : List Char) :
    (BeeSlicer.upperL sd ∈ files →
      BeeSlicer.PrintPy.final_sd_filename (some files) sd = BeeSlicer.upperL sd) ∧
    (BeeSlicer.upperL sd ∉ files →
      ∀ f, files.find? (fun g => ((BeeSlicer.upperL sd).take 6).isPrefixOf g) = some f →
        f ≠ [] →
        BeeSlicer.PrintPy.final_sd_filename (some files) sd = f) ∧
    (BeeSlicer.upperL sd ∉ files →
      files.find? (fun g => ((BeeSlicer.upperL sd).take 6).isPrefixOf g) = none →
      BeeSlicer.PrintPy.final_sd_filename (some files) sd = BeeSlicer.upperL sd) := by
  refine ⟨?_, ?_, ?_⟩
  · intro hmem
    unfold BeeSlicer.PrintPy.final_sd_filename BeeSlicer.PrintPy.matched_file
    dsimp only
    rw [if_pos hmem]
    dsimp only
    split <;> rfl
  · intro hnot f hf hfne
    unfold BeeSlicer.PrintPy.final_sd_filename BeeSlicer.PrintPy.matched_file
    dsimp only
    rw [if_neg hnot, hf]
    have hemp : f.isEmpty = false := by
      cases f with
      | nil => exact absurd rfl hfne
      | cons a l => rfl
    simp [hemp]
  · intro hnot hnone
    unfold BeeSlicer.PrintPy.final_sd_filename BeeSlicer.PrintPy.matched_file
    dsimp only
    rw [if_neg hnot, hnone]
    dsimp only
    split <;> rfl

/-- Claim C8, witness: exact uppercase match is used. -/
theorem C8_sd_file_matching_w :
    BeeSlicer.PrintPy.final_sd_filename (some ["ABC".toList]) ("abc".toList) =
      BeeSlicer.upperL ("abc".toList) :=
  (C8_sd_file_matching _ _).1 (by decide)

namespace BeeSlicer

/-- The src-style polling loop confirms exactly when some round within
its budget samples a temperature at or above `target - 2`. -/
theorem heat_poll_true_iff (samples : Nat → Option Int) (target : Int) :
    ∀ (fuel i : Nat) (last : Option Int),
      (SrcPrint.heat_poll samples target i fuel last).1 = true ↔
        ∃ k, k < fuel ∧ ∃ t, samples (i + k) = some t ∧ target - 2 ≤ t := by
  intro fuel
  induction fuel with
  | zero =>
    intro i last
    constructor
    · intro h
      exact absurd h (by simp [SrcPrint.heat_poll])
    · rintro ⟨k, hk, -⟩
      omega
  | succ n ih =>
    intro i last
    unfold SrcPrint.heat_poll
    cases hs : samples i with
    | none =>
      constructor
      · intro h
        rcases (ih (i + 1) last).1 h with ⟨k, hk, t, ht, hge⟩
        exact ⟨k + 1, by omega, t, by rwa [show i + (k + 1) = i + 1 + k by omega], hge⟩
      · rintro ⟨k, hk, t, ht, hge⟩
        cases k with
        | zero =>
          rw [Nat.add_zero, hs] at ht
          cases ht
        | succ m =>
          exact (ih (i + 1) last).2
            ⟨m, by omega, t, by rwa [show i + (m + 1) = i + 1 + m by omega] at ht, hge⟩
    | some t0 =>
      dsimp only
      by_cases hge0 : target - 2 ≤ t0
      · rw [if_pos hge0]
        constructor
        · intro _
          exact ⟨0, by omega, t0, by rwa [Nat.add_zero], hge0⟩
        · intro _
          rfl
      · rw [if_neg hge0]
        constructor
        · intro h
          rcases (ih (i + 1) (some t0)).1 h with ⟨k, hk, t, ht, hge⟩
          exact ⟨k + 1, by omega, t, by rwa [show i + (k + 1) = i + 1 + k by omega], hge⟩
        · rintro ⟨k, hk, t, ht, hge⟩
          cases k with
          | zero =>
            rw [Nat.add_zero, hs] at ht
            cases ht
            exact absurd hge hge0
          | succ m =>
            exact (ih (i + 1) (some t0)).2
              ⟨m, by omega, t, by rwa [show i + (m + 1) = i + 1 + m by omega] at ht, hge⟩

/-- When round `k` is the first to sample at or above `target - 2`, the
src-style loop stops there and reports that round's sample. -/
theorem heat_poll_first (samples : Nat → Option Int) (target : Int) :
    ∀ (k fuel i : Nat) (last : Option Int), k < fuel →
      (∀ j, j < k → ∀ u, samples (i + j) = some u → u < target - 2) →
      ∀ t, samples (i + k) = some t → target - 2 ≤ t →
        SrcPrint.heat_poll samples target i fuel last = (true, some t) := by
  intro k
  induction k with
  | zero =>
    intro fuel i last hk _ t ht hge
    cases fuel with
    | zero => omega
    | succ n =>
      unfold SrcPrint.heat_poll
      rw [Nat.add_zero] at ht
      rw [ht]
      dsimp only
      rw [if_pos hge]
  | succ m ih =>
    intro fuel i last hk hpre t ht hge
    cases fuel with
    | zero => omega
    | succ n =>
      unfold SrcPrint.heat_poll
      cases hs : samples i with
      | none =>
        exact ih n (i + 1) last (by omega)
          (fun j hj u hu =>
            hpre (j + 1) (by omega) u (by rwa [show i + (j + 1) = i + 1 + j by omega]))
          t (by rwa [show i + (m + 1) = i + 1 + m by omega] at ht) hge
      | some u0 =>
        dsimp only
        have hlt : u0 < target - 2 :=
          hpre 0 (Nat.succ_pos m) u0 (by rwa [Nat.add_zero])
        rw [if_neg (show ¬ target - 2 ≤ u0 by omega)]
        exact ih n (i + 1) (some u0) (by omega)
          (fun j hj u hu =>
            hpre (j + 1) (by omega) u (by rwa [show i + (j + 1) = i + 1 + j by omega]))
          t (by rwa [show i + (m + 1) = i + 1 + m by omega] at ht) hge

/-- A src-style loop that never confirms ends on the last observed
reading. -/
theorem heat_poll_false_obs (samples : Nat → Option Int) (target : Int) :
    ∀ (fuel i : Nat) (last : Option Int),
      (SrcPrint.heat_poll samples target i fuel last).1 = false →
      (SrcPrint.heat_poll samples target i fuel last).2 =
        SrcPrint.last_obs samples i fuel last := by
  intro fuel
  induction fuel with
  | zero =>
    intro i last _
    rfl
  | succ n ih =>
    intro i last hf
    unfold SrcPrint.heat_poll at hf ⊢
    unfold SrcPrint.last_obs
    cases hs : samples i with
    | none =>
      rw [hs] at hf
      exact ih (i + 1) last hf
    | some t0 =>
      rw [hs] at hf
      dsimp only at hf ⊢
      by_cases hge : target - 2 ≤ t0
      · rw [if_pos hge] at hf
        exact absurd hf (by simp)
      · rw [if_neg hge] at hf ⊢
        exact ih (i + 1) (some t0) hf

/-- When some round within the budget meets the standalone success
condition, the standalone loop ends on a reading that meets it. -/
theorem standalone_poll_hit (samples : Nat → Option Int) (heat : Int) :
    ∀ (fuel i : Nat) (cur : Option Int),
      (∃ k, k < fuel ∧ Standalone.cmpGE (samples (i + k)) heat = true) →
      Standalone.cmpGE (Standalone.heat_poll samples heat i fuel cur) heat = true := by
  intro fuel
  induction fuel with
  | zero =>
    rintro i cur ⟨k, hk, -⟩
    omega
  | succ n ih =>
    rintro i cur ⟨k, hk, hcmp⟩
    unfold Standalone.heat_poll
    by_cases h0 : Standalone.cmpGE (samples i) heat = true
    · rw [if_pos h0]
      exact h0
    · rw [if_neg h0]
      cases k with
      | zero =>
        rw [Nat.add_zero] at hcmp
        exact absurd hcmp h0
      | succ m =>
        exact ih (i + 1) (samples i)
          ⟨m, by omega, by rwa [show i + (m + 1) = i + 1 + m by omega] at hcmp⟩

/-- When no round within the budget meets the standalone success
condition (and the loop runs at least once, or the starting reading
already fails it), the standalone loop ends on a reading that fails
it. -/
theorem standalone_poll_miss (samples : Nat → Option Int) (heat : Int) :
    ∀ (fuel i : Nat) (cur : Option Int),
      (∀ k, k < fuel → Standalone.cmpGE (samples (i + k)) heat = false) →
      (Standalone.cmpGE cur heat = false ∨ 0 < fuel) →
      Standalone.cmpGE (Standalone.heat_poll samples heat i fuel cur) heat = false := by
  intro fuel
  induction fuel with
  | zero =>
    intro i cur _ hstart
    rcases hstart with h | h
    · exact h
    · omega
  | succ n ih =>
    intro i cur hall _
    unfold Standalone.heat_poll
    have h0 : Standalone.cmpGE (samples i) heat = false := by
      have := hall 0 (Nat.succ_pos n)
      rwa [Nat.add_zero] at this
    rw [if_neg (by simp [h0])]
    exact ih (i + 1) (samples i)
      (fun k hk => by
        have := hall (k + 1) (by omega)
        rwa [show i + (k + 1) = i + 1 + k by omega] at this)
      (Or.inl h0)

end BeeSlicer

/-- Claim C6 (corrected).  For the heating loops of src/src/print.py and
print_direct.py: exactly one heat-set command is issued, the loop
declares the target reached exactly when a sample within the budget is
at or above `target - 2`, on success it reports the first such sample's
temperature, and on timeout it ends not-reached with the last observed
temperature.  The standalone-printer variant instead issues its single
heat-set command at `target + 5` and declares reached only when a
sample is at or above `target + 5` (no tolerance). -/
theorem C6_heating (samples : Nat → Option Int) (target : Int) (fuel : Nat) :
    (BeeSlicer.SrcPrint.heatTo samples target fuel).cmds =
      [BeeSlicer.SrcPrint.m104_cmd target] ∧
    ((BeeSlicer.SrcPrint.heatTo samples target fuel).reached = true ↔
      ∃ k, k < fuel ∧ ∃ t, samples k = some t ∧ target - 2 ≤ t) ∧
    ((BeeSlicer.SrcPrint.heatTo samples target fuel).reached = true →
      ∃ k, k < fuel ∧ ∃ t, samples k = some t ∧ target - 2 ≤ t ∧
        (BeeSlicer.SrcPrint.heatTo samples target fuel).finalTemp = some t ∧
        ∀ j, j < k → ∀ u, samples j = some u → u < target - 2) ∧
    ((BeeSlicer.SrcPrint.heatTo samples target fuel).reached = false →
      (BeeSlicer.SrcPrint.heatTo samples target fuel).finalTemp =
        BeeSlicer.SrcPrint.last_obs samples 0 fuel none) ∧
    (BeeSlicer.Standalone.heatTo samples target fuel).cmds =
      [BeeSlicer.SrcPrint.m104_cmd (target + 5)] ∧
    (0 < fuel →
      ((BeeSlicer.Standalone.heatTo samples target fuel).reached = true ↔
        ∃ k, k < fuel ∧ BeeSlicer.Standalone.cmpGE (samples k) (target + 5) = true)) := by
  refine ⟨rfl, ?_, ?_, ?_, rfl, ?_⟩
  · have := BeeSlicer.heat_poll_true_iff samples target fuel 0 none
    simpa using this
  · intro h
    classical
    have hex : ∃ k, k < fuel ∧ ∃ t, samples k = some t ∧ target - 2 ≤ t := by
      have := (BeeSlicer.heat_poll_true_iff samples target fuel 0 none).1 h
      simpa using this
    obtain ⟨k0, hk0⟩ := hex
    let P : Nat → Prop := fun k => k < fuel ∧ ∃ t, samples k = some t ∧ target - 2 ≤ t
    have hP : ∃ k, P k := ⟨k0, hk0⟩
    have hfind := Nat.find_spec hP
    obtain ⟨hlt, t, ht, hge⟩ := hfind
    refine ⟨Nat.find hP, hlt, t, ht, hge, ?_, ?_⟩
    · have := BeeSlicer.heat_poll_first samples target (Nat.find hP) fuel 0 none hlt
        (fun j hj u hu => by
          have hnP := Nat.find_min hP hj
          simp only [P, not_and, not_exists] at hnP
          by_contra hc
          push_neg at hc
          exact hnP (by omega) u (by simpa using hu) hc)
        t (by simpa using ht) hge
      simp [BeeSlicer.SrcPrint.heatTo, this]
    · intro j hj u hu
      have hnP := Nat.find_min hP hj
      simp only [P, not_and, not_exists] at hnP
      by_contra hc
      push_neg at hc
      exact hnP (by omega) u hu hc
  · intro h
    have := BeeSlicer.heat_poll_false_obs samples target fuel 0 none h
    simpa [BeeSlicer.SrcPrint.heatTo] using this
  · intro hfuel
    constructor
    · intro h
      by_contra hc
      push_neg at hc
      have hall : ∀ k, k < fuel →
          BeeSlicer.Standalone.cmpGE (samples k) (target + 5) = false := by
        intro k hk
        have := hc k hk
        simpa using this
      have := BeeSlicer.standalone_poll_miss samples (target + 5) fuel 0 (some 0)
        (fun k hk => by simpa using hall k hk) (Or.inr hfuel)
      rw [show (BeeSlicer.Standalone.heatTo samples target fuel).reached =
        BeeSlicer.Standalone.cmpGE
          (BeeSlicer.Standalone.heat_poll samples (target + 5) 0 fuel (some 0))
          (target + 5) from rfl] at h
      rw [h] at this
      cases this
    · rintro ⟨k, hk, hcmp⟩
      have := BeeSlicer.standalone_poll_hit samples (target + 5) fuel 0 (some 0)
        ⟨k, hk, by simpa using hcmp⟩
      exact this

/-- Claim C6, witness: a device sampling 250 against target 200 is
declared reached with one heat-set command. -/
theorem C6_heating_w :
    (BeeSlicer.SrcPrint.heatTo (fun _ => some 250) 200 3).cmds =
      [BeeSlicer.SrcPrint.m104_cmd 200] ∧
    (BeeSlicer.SrcPrint.heatTo (fun _ => some 250) 200 3).reached = true :=
  ⟨(C6_heating (fun _ => some 250) 200 3).1,
   (C6_heating (fun _ => some 250) 200 3).2.1.mpr ⟨0, by decide, 250, rfl, by decide⟩⟩

/-- Claim C6, counterexample: the standalone variant samples 203 with
target 200 — at or above `target - 2` as the claim's success condition
requires — yet does not declare the target reached, because its
condition is `target + 5` with no tolerance. -/
theorem C6_counterexample :
    (fun _ : Nat => (some 203 : Option Int)) 0 = some 203 ∧
    ((200 : Int) - 2 ≤ 203) ∧
    (BeeSlicer.Standalone.heatTo (fun _ => some 203) 200 1).reached = false := by
  exact ⟨rfl, by decide, by decide⟩

namespace BeeSlicer

/-- Whenever the streaming section exits with status 1 (the interrupt
path), the connection was closed and the trace ends with the attempted
stop commands: M108 and M112 when the M108 send returned, M108 alone
exactly when the M108 send itself raised. -/
theorem stream_interrupt_spec (env : PrintDirect.Env) :
    ∀ (lines trace : List (List Char)),
      (PrintDirect.stream env lines trace).exit_code = some 1 →
        (PrintDirect.stream env lines trace).closed = true ∧
        PrintDirect.m108_cmd ∈ (PrintDirect.stream env lines trace).trace ∧
        ((∃ pre, (PrintDirect.stream env lines trace).trace =
            pre ++ [PrintDirect.m108_cmd, PrintDirect.m112_cmd]) ∨
         (∃ pre, (PrintDirect.stream env lines trace).trace =
            pre ++ [PrintDirect.m108_cmd] ∧
           ∀ r, env pre PrintDirect.m108_cmd ≠ PrintDirect.SendResult.ok r)) := by
  intro lines
  induction lines with
  | nil =>
    intro trace h
    exact absurd h (by simp [PrintDirect.stream])
  | cons line rest ih =>
    intro trace h
    unfold PrintDirect.stream at h ⊢
    dsimp only at h ⊢
    cases he : env trace (PrintDirect.ensure_newline line) with
    | interrupt =>
      rw [he] at h
      dsimp only at h ⊢
      unfold PrintDirect.stop_and_close at h ⊢
      cases hm : env (trace ++ [PrintDirect.ensure_newline line]) PrintDirect.m108_cmd with
      | ok r =>
        rw [hm] at h
        dsimp only at h ⊢
        refine ⟨rfl, by simp, Or.inl ⟨trace ++ [PrintDirect.ensure_newline line], ?_⟩⟩
        simp
      | interrupt =>
        rw [hm] at h
        dsimp only at h ⊢
        refine ⟨rfl, by simp, Or.inr ⟨trace ++ [PrintDirect.ensure_newline line], by simp, ?_⟩⟩
        intro r hok
        rw [hm] at hok
        cases hok
      | err =>
        rw [hm] at h
        dsimp only at h ⊢
        refine ⟨rfl, by simp, Or.inr ⟨trace ++ [PrintDirect.ensure_newline line], by simp, ?_⟩⟩
        intro r hok
        rw [hm] at hok
        cases hok
    | ok r =>
      rw [he] at h
      dsimp only at h ⊢
      exact ih (trace ++ [PrintDirect.ensure_newline line]) h
    | err =>
      rw [he] at h
      dsimp only at h ⊢
      exact ih (trace ++ [PrintDirect.ensure_newline line]) h

end BeeSlicer

/-- Claim C10 (corrected).  When a KeyboardInterrupt lands during the
streaming loop, the program always attempts a device stop before
exiting with status 1 and closing the connection: it sends M108, and —
provided the M108 send itself does not raise — M112, swallowing what
either stop send raises; an exception in the M108 send is swallowed but
skips the M112 send. -/
theorem C10_interrupt_stop (env : BeeSlicer.PrintDirect.Env)
    (lines : List (List Char))
    (h : (BeeSlicer.PrintDirect.run env lines).exit_code = some 1) :
    (BeeSlicer.PrintDirect.run env lines).closed = true ∧
    BeeSlicer.PrintDirect.m108_cmd ∈ (BeeSlicer.PrintDirect.run env lines).trace ∧
    ((∃ pre, (BeeSlicer.PrintDirect.run env lines).trace =
        pre ++ [BeeSlicer.PrintDirect.m108_cmd, BeeSlicer.PrintDirect.m112_cmd]) ∨
     (∃ pre, (BeeSlicer.PrintDirect.run env lines).trace =
        pre ++ [BeeSlicer.PrintDirect.m108_cmd] ∧
       ∀ r, env pre BeeSlicer.PrintDirect.m108_cmd ≠
         BeeSlicer.PrintDirect.SendResult.ok r)) :=
  BeeSlicer.stream_interrupt_spec env lines [] h

/-- Claim C10, witness: an interrupt in the first send leads to a closed
connection with the M108 stop attempted. -/
theorem C10_interrupt_stop_w :
    (BeeSlicer.PrintDirect.run BeeSlicer.PrintDirect.envC
        [("G1 X0").toList]).closed = true ∧
    BeeSlicer.PrintDirect.m108_cmd ∈
      (BeeSlicer.PrintDirect.run BeeSlicer.PrintDirect.envC
        [("G1 X0").toList]).trace :=
  ⟨(C10_interrupt_stop BeeSlicer.PrintDirect.envC _ (by decide)).1,
   (C10_interrupt_stop BeeSlicer.PrintDirect.envC _ (by decide)).2.1⟩

/-- Claim C10, counterexample: when the M108 send raises a transport
error the handler swallows it but never issues M112, so the claim's
"sends M108 followed by M112" fails on this run even though the
interrupt path completed with exit status 1. -/
theorem C10_counterexample :
    (BeeSlicer.PrintDirect.run BeeSlicer.PrintDirect.envC
        [("G1 X0").toList]).exit_code = some 1 ∧
    BeeSlicer.PrintDirect.m112_cmd ∉
      (BeeSlicer.PrintDirect.run BeeSlicer.PrintDirect.envC
        [("G1 X0").toList]).trace := by
  exact ⟨by decide, by decide⟩
